import Mathlib

/-!
# Verification of the disaster-data aggregation layer

A shallow embedding, over `ℚ`, `ℤ` and Lean `String`s, of the aggregation
pipelines of the data-visualization repository:

* the CSV field parsers of `src/lib/emdatData.ts`,
* the stacked-timeline pipeline of `components/CountryTimelineStacked.tsx`,
* the diverging-comparison pipeline of
  `components/CountryCompareTimelineDiverging.tsx`,
* the raincloud/half-violin KDE pipeline (`CountryRaincloudHalfViolin.tsx`),
* the boxplot quantile (`d3.quantileSorted`, used by
  `CountryDecadeBoxplot.tsx` and the raincloud tooltip),
* the sparkline path builders (`buildSparkPath` of `ContinentKPIOverview.tsx`
  and the inline builder of `TotalDeathsCard.tsx`),
* the memoized record loader of `src/lib/emdatData.ts`.

JavaScript numbers are modelled as exact rationals (`ℚ`); numeric literals of
the source are read as the rationals they denote.  JavaScript strings are
modelled as Lean `String`s, with `trim`/`toLowerCase` re-implemented
structurally (`jsTrim`/`jsToLower`) so that they compute by `decide`.
JavaScript `Map`s are modelled as association lists that preserve insertion
order, exactly as the ES2015 `Map` iteration order does.
-/

namespace DataViz

/-! ## JS string primitives

Models of `String.prototype.trim` and `String.prototype.toLowerCase` for the
ASCII data handled by this repository. -/

/-- Model of JS `s.toLowerCase()` (ASCII range). -/
def jsToLower (s : String) : String := ⟨s.data.map Char.toLower⟩

/-- Model of JS `s.trim()`: strip leading and trailing whitespace. -/
def jsTrim (s : String) : String :=
  ⟨(((s.data.dropWhile Char.isWhitespace).reverse).dropWhile Char.isWhitespace).reverse⟩

/-- `normalizeKey` from `CountryCompareTimelineDiverging.tsx` (and
`CountryRaincloudHalfViolin.tsx`): `s.trim().toLowerCase()`. -/
def normalizeKey (s : String) : String := jsToLower (jsTrim s)

/-! ## The JS `Number()` builtin (fragment)

`parseNumericField` feeds `Number()` a trimmed, comma-stripped string.  We
model the builtin on the fragment it actually receives: decimal literals with
an optional sign and an optional fractional part, the empty string (which JS
converts to `0`), and `Infinity`; every other string is `NaN`.  Exponent and
hex forms, absent from the EM-DAT CSV, are mapped to `NaN` like any other
unhandled text. -/

/-- A JS number as seen by `Number.isFinite`: `NaN`, `±Infinity`, or a finite
value (modelled as an exact rational). -/
inductive JSNum where
  | nan : JSNum
  | inf : JSNum
  | negInf : JSNum
  | fin : ℚ → JSNum
deriving DecidableEq

/-- Numeric value of a digit string (most significant digit first);
`0` for the empty list. -/
def natOfDigits (cs : List Char) : ℕ :=
  cs.foldl (fun a c => 10 * a + (c.toNat - 48)) 0

/-- Value of an unsigned decimal literal: digits with at most one `'.'`,
at least one digit overall. -/
def jsDecimalValue (cs : List Char) : Option ℚ :=
  match cs.splitOn '.' with
  | [ip] =>
      if ip ≠ [] ∧ ip.all Char.isDigit then some (natOfDigits ip : ℚ) else none
  | [ip, fp] =>
      if (ip ≠ [] ∨ fp ≠ []) ∧ ip.all Char.isDigit ∧ fp.all Char.isDigit then
        some (mkRat (natOfDigits ip * 10 ^ fp.length + natOfDigits fp) (10 ^ fp.length))
      else none
  | _ => none

/-- Modelled fragment of the JS `Number()` builtin (see section comment). -/
def jsNumber (s : String) : JSNum :=
  let t := jsTrim s
  if t.data = [] then .fin 0
  else
    match t.data with
    | '-' :: rest =>
        if rest = "Infinity".data then .negInf
        else match jsDecimalValue rest with
          | some q => .fin (-q)
          | none => .nan
    | '+' :: rest =>
        if rest = "Infinity".data then .inf
        else match jsDecimalValue rest with
          | some q => .fin q
          | none => .nan
    | cs =>
        if cs = "Infinity".data then .inf
        else match jsDecimalValue cs with
          | some q => .fin q
          | none => .nan

/-- `trimmed.replace(/,/g, "")` of `emdatData.ts`. -/
def stripCommas (s : String) : String := ⟨s.data.filter (fun c => c ≠ ',')⟩

/-- `parseNumericField` from `src/lib/emdatData.ts`:
`null`/`undefined` ↦ `null`; blank after trim ↦ `null`; otherwise
`Number(trimmed.replace(/,/g, ""))`, kept only when finite. -/
def parseNumericField (raw : Option String) : Option ℚ :=
  match raw with
  | none => none
  | some s =>
      let trimmed := jsTrim s
      if trimmed.data = [] then none
      else
        match jsNumber (stripCommas trimmed) with
        | .fin q => some q
        | _ => none

/-! ## Economic damage derivation (`emdatData.ts`, lines 110-115) -/

/-- The `economicDamageAdj` derivation of `getDisasterData`:
`totalDamageAdj ?? reconstructionCostsAdj ?? insuredDamageAdj ?? null`,
then divided by `1000` when non-null. -/
def economicDamageAdjOf (totalDamageAdj reconstructionCostsAdj insuredDamageAdj :
    Option ℚ) : Option ℚ :=
  match totalDamageAdj.or (reconstructionCostsAdj.or insuredDamageAdj) with
  | some v => some (v / 1000)
  | none => none

/-- The spec's wording for C6: "first non-null of (totalDamageAdj,
reconstructionCostsAdj, insuredDamageAdj)", then rescaled by dividing
by 1000. -/
def economicDamageAdjSpec (t r i : Option ℚ) : Option ℚ :=
  (if t.isSome then t else if r.isSome then r else i).map (fun v => v / 1000)

/-! ## The record type (`src/lib/emdatData.ts`) -/

/-- `DisasterRecord` of `src/lib/emdatData.ts`.  Numeric JS values are
modelled as `ℚ` (`ℤ` for the always-integral `year`). -/
structure DisasterRecord where
  iso : String
  country : String
  region : String
  subregion : String
  year : ℤ
  startMonth : Option ℚ
  startDay : Option ℚ
  endMonth : Option ℚ
  endDay : Option ℚ
  disasterType : String
  totalDeaths : Option ℚ
  totalAffected : Option ℚ
  totalDamageAdj : Option ℚ
  reconstructionCostsAdj : Option ℚ
  insuredDamageAdj : Option ℚ
  economicDamageAdj : Option ℚ
deriving DecidableEq, Inhabited

/-- `x ?? 0` on an optional JS number. -/
def qOrZero (v : Option ℚ) : ℚ := v.getD 0

/-- The metric toggle shared by the timeline pipelines. -/
inductive MetricKey where
  | events : MetricKey
  | deaths : MetricKey
  | affected : MetricKey
deriving DecidableEq

/-! ## Country matching predicates (one per pipeline family) -/

/-- Country predicate of `CountryTimelineStacked.tsx` (also used verbatim by
`CountryDecadeBoxplot.tsx` and `CountryTypeComposition.tsx`):
`d.iso === countryId || d.country === countryId` — exact string equality. -/
def stackedCountryMatch (d : DisasterRecord) (countryId : String) : Bool :=
  d.iso == countryId || d.country == countryId

/-- Country predicate of `CountryCompareTimelineDiverging.tsx` (and
`CountryRaincloudHalfViolin.tsx`): compare `normalizeKey` of the record's
`country` and `iso` against `normalizeKey` of the key. -/
def divergingCountryMatch (d : DisasterRecord) (key : String) : Bool :=
  normalizeKey d.country == normalizeKey key || normalizeKey d.iso == normalizeKey key

/-- Country predicate of `TotalEventsCard.tsx`:
`d.country.toLowerCase() === countryId.toLowerCase()` — lower-cased but not
trimmed, and the ISO code is not consulted. -/
def cardCountryMatch (d : DisasterRecord) (countryId : String) : Bool :=
  jsToLower d.country == jsToLower countryId

/-- C3's matching rule as the spec words it: the whitespace-trimmed,
case-insensitively normalized key equals either the record's country name or
its ISO code (both likewise normalized). -/
def claimCountryMatch (d : DisasterRecord) (key : String) : Prop :=
  normalizeKey key = normalizeKey d.country ∨ normalizeKey key = normalizeKey d.iso

/-- C3 (amended), spec-side wording for the stacked family: the record matches
iff the key equals, exactly, the record's ISO code or its country name. -/
def exactMatchSpec (d : DisasterRecord) (key : String) : Prop :=
  key = d.iso ∨ key = d.country

/-- C3 (amended), spec-side wording for the total-events card: the record
matches iff the case-folded key equals the case-folded country name (the ISO
code never matches, and no trimming happens). -/
def cardMatchSpec (d : DisasterRecord) (key : String) : Prop :=
  jsToLower key = jsToLower d.country

/-! ## Stacked timeline pipeline (`CountryTimelineStacked.tsx`) -/

/-- Per-`(year, type)` accumulator row (`YearTypeAgg` of the source). -/
structure YearTypeAgg where
  year : ℤ
  type : String
  events : ℚ
  deaths : ℚ
  affected : ℚ
deriving DecidableEq

/-- `perCountry` filter: `d.iso === countryId || d.country === countryId`. -/
def stackedPerCountry (data : List DisasterRecord) (countryId : String) :
    List DisasterRecord :=
  data.filter (fun d => stackedCountryMatch d countryId)

/-- The `filtered` list of the stacked pipeline: year range (inclusive) and
`selectedTypes.includes(d.disasterType)`. -/
def stackedFiltered (data : List DisasterRecord) (countryId : String)
    (selectedTypes : List String) (yearStart yearEnd : ℤ) : List DisasterRecord :=
  (stackedPerCountry data countryId).filter
    (fun d => decide (yearStart ≤ d.year) && decide (d.year ≤ yearEnd) &&
      selectedTypes.contains d.disasterType)

/-- One step of `d3.rollups(filtered, v => v.length, d => d.disasterType)`:
increment the count for `key`, appending a new entry on first encounter
(d3's `InternMap` preserves first-encounter order). -/
def bumpCount : List (String × ℕ) → String → List (String × ℕ)
  | [], key => [(key, 1)]
  | (k, n) :: rest, key =>
      if k == key then (k, n + 1) :: rest else (k, n) :: bumpCount rest key

/-- `d3.rollups` of the stacked pipeline: event count per disaster type, in
first-encounter order. -/
def rollupCounts (rs : List DisasterRecord) : List (String × ℕ) :=
  rs.foldl (fun acc d => bumpCount acc d.disasterType) []

/-- `eventsByType.sort(d3.descending on counts)` then `slice(0, 5)`: the top
five types by event count.  JS `Array.prototype.sort` is stable (ES2019); a
stable insertion sort by descending count models it exactly. -/
def stackedTopTypes (rs : List DisasterRecord) : List String :=
  ((List.insertionSort (fun a b : String × ℕ => b.2 ≤ a.2) (rollupCounts rs)).take 5).map
    Prod.fst

/-- The synthetic catch-all label. -/
def OTHER_LABEL : String := "Other"

/-- `typeKey`: the record's own type when it is in the top set, else
`"Other"`. -/
def typeKeyOf (topTypes : List String) (d : DisasterRecord) : String :=
  if topTypes.contains d.disasterType then d.disasterType else OTHER_LABEL

/-- The string key `` `${year}__${typeKey}` `` of the aggregation map. -/
def yearTypeKey (year : ℤ) (typeKey : String) : String :=
  toString year ++ "__" ++ typeKey

/-- Accumulate one record into a row: `events += 1`,
`deaths += d.totalDeaths ?? 0`, `affected += d.totalAffected ?? 0`. -/
def addRecord (row : YearTypeAgg) (d : DisasterRecord) : YearTypeAgg :=
  ⟨row.year, row.type, row.events + 1, row.deaths + qOrZero d.totalDeaths,
    row.affected + qOrZero d.totalAffected⟩

/-- `byYearType.get(key)` miss ⇒ create a zero row, then accumulate; a JS
`Map` update keeps the entry's insertion position. -/
def upsertRow : List (String × YearTypeAgg) → String → ℤ → String →
    DisasterRecord → List (String × YearTypeAgg)
  | [], key, y, tk, d => [(key, addRecord ⟨y, tk, 0, 0, 0⟩ d)]
  | (k, row) :: rest, key, y, tk, d =>
      if k == key then (k, addRecord row d) :: rest
      else (k, row) :: upsertRow rest key y tk d

/-- The aggregation loop `for (const d of filtered) { ... }` building
`byYearType`. -/
def stackedFold (rs : List DisasterRecord) (topTypes : List String) :
    List (String × YearTypeAgg) :=
  rs.foldl
    (fun m d =>
      upsertRow m (yearTypeKey d.year (typeKeyOf topTypes d)) d.year
        (typeKeyOf topTypes d) d)
    []

/-- JS `Set` insertion: keep first occurrences, in order. -/
def insertNew [BEq α] (acc : List α) (a : α) : List α :=
  if acc.contains a then acc else acc ++ [a]

/-- `Array.from(new Set(l))`: de-duplicate preserving first-encounter order. -/
def dedupFirst [BEq α] (l : List α) : List α := l.foldl insertNew []

/-- `years = Array.from(yearsSet).sort(d3.ascending)`. -/
def stackedYears (m : List (String × YearTypeAgg)) : List ℤ :=
  List.insertionSort (· ≤ ·) (dedupFirst (m.map (fun p => p.2.year)))

/-- `types = Array.from(typesSet)` (insertion order, not sorted). -/
def stackedTypes (m : List (String × YearTypeAgg)) : List String :=
  dedupFirst (m.map (fun p => p.2.type))

/-- `byYearType.get(key)`. -/
def lookupRow (m : List (String × YearTypeAgg)) (key : String) :
    Option YearTypeAgg :=
  (m.find? (fun p => p.1 == key)).map Prod.snd

/-- `agg[metric]` selection. -/
def metricOf : MetricKey → YearTypeAgg → ℚ
  | .events, a => a.events
  | .deaths, a => a.deaths
  | .affected, a => a.affected

/-- `stackInput`: one entry per `year` of `years`, carrying for each type of
`types` the metric of the `(year, type)` row, or `0` when absent. -/
def stackInputOf (m : List (String × YearTypeAgg)) (metric : MetricKey) :
    List (ℤ × List ℚ) :=
  (stackedYears m).map (fun y =>
    (y, (stackedTypes m).map (fun t =>
      match lookupRow m (yearTypeKey y t) with
      | some agg => metricOf metric agg
      | none => 0)))

/-- The parts of the stacked pipeline's memo that feed the chart (the
`d3.stack` series, `maxValue` and the tooltip index are pointwise functions of
`stackInput`/`byYearType` and are not consumed by any claim). -/
structure StackMemo where
  years : List ℤ
  types : List String
  stackInput : List (ℤ × List ℚ)
  byYearType : List (String × YearTypeAgg)
deriving DecidableEq

/-- The `empty` memo returned by the early-outs. -/
def emptyStackMemo : StackMemo := ⟨[], [], [], []⟩

/-- The `useMemo` body of `CountryTimelineStacked.tsx` (data already loaded):
early-return on empty type selection, filter, early-return on no matches,
top-5 collapse, aggregate, assemble. -/
def stackedMemo (data : List DisasterRecord) (countryId : String)
    (selectedTypes : List String) (yearStart yearEnd : ℤ) (metric : MetricKey) :
    StackMemo :=
  if selectedTypes = [] then emptyStackMemo
  else
    let filtered := stackedFiltered data countryId selectedTypes yearStart yearEnd
    if filtered = [] then emptyStackMemo
    else
      let top := stackedTopTypes filtered
      let m := stackedFold filtered top
      ⟨stackedYears m, stackedTypes m, stackInputOf m metric, m⟩

/-! ## Diverging comparison pipeline (`CountryCompareTimelineDiverging.tsx`) -/

/-- `floorToBin`: the year itself for bin 1, else
`Math.floor(year / bin) * bin`.  `ℤ` division in Lean (`Int.ediv`, written
`/`) is floor division for the positive bin sizes used here. -/
def floorToBin (year bin : ℤ) : ℤ :=
  if bin = 1 then year else year / bin * bin

/-- `binLabel`. -/
def binLabel (start bin : ℤ) : String :=
  if bin = 1 then toString start
  else toString start ++ "–" ++ toString (start + bin - 1)

/-- One row of the diverging chart's `bins` array. -/
structure DivergingBin where
  binStart : ℤ
  label : String
  a : ℚ
  b : ℚ
deriving DecidableEq

/-- The `filtered` list of the diverging pipeline: year range, type set, and
either-country match. -/
def divergingFiltered (data : List DisasterRecord) (countryA countryB : String)
    (selectedTypes : List String) (yearStart yearEnd : ℤ) : List DisasterRecord :=
  data.filter (fun d =>
    decide (yearStart ≤ d.year) && decide (d.year ≤ yearEnd) &&
    selectedTypes.contains d.disasterType &&
    (divergingCountryMatch d countryA || divergingCountryMatch d countryB))

/-- Metric delta of one record: `1` / `totalDeaths ?? 0` /
`totalAffected ?? 0`. -/
def metricDelta (metric : MetricKey) (d : DisasterRecord) : ℚ :=
  match metric with
  | .events => 1
  | .deaths => qOrZero d.totalDeaths
  | .affected => qOrZero d.totalAffected

/-- `agg.get(bStart) ?? {a: 0, b: 0}`, add the delta on the matched side,
`agg.set` (insertion order preserved). -/
def upsertAB (m : List (ℤ × (ℚ × ℚ))) (k : ℤ) (isA : Bool) (delta : ℚ) :
    List (ℤ × (ℚ × ℚ)) :=
  match m with
  | [] => [(k, if isA then (delta, 0) else (0, delta))]
  | (k', ab) :: rest =>
      if k' == k then
        (k', if isA then (ab.1 + delta, ab.2) else (ab.1, ab.2 + delta)) :: rest
      else (k', ab) :: upsertAB rest k isA delta

/-- The aggregation loop of the diverging pipeline.  The source computes
`isA`/`isB` and credits side `a` when `isA` (side `b` only otherwise). -/
def divergingAgg (rs : List DisasterRecord) (countryA countryB : String)
    (bin : ℤ) (metric : MetricKey) : List (ℤ × (ℚ × ℚ)) :=
  rs.foldl
    (fun m d =>
      if divergingCountryMatch d countryA then
        upsertAB m (floorToBin d.year bin) true (metricDelta metric d)
      else if divergingCountryMatch d countryB then
        upsertAB m (floorToBin d.year bin) false (metricDelta metric d)
      else m)
    []

/-- `agg.get(y) ?? {a: 0, b: 0}`. -/
def lookupAB (m : List (ℤ × (ℚ × ℚ))) (k : ℤ) : ℚ × ℚ :=
  ((m.find? (fun p => p.1 == k)).map Prod.snd).getD (0, 0)

/-- The loop `for (let y = startBin; y <= endBin; y += binSize)`.  The guard
`0 < bin` only makes the model total; the source's bin sizes are 1, 5, 10. -/
def binRange (s e bin : ℤ) : List ℤ :=
  if h : 0 < bin ∧ s ≤ e then s :: binRange (s + bin) e bin else []
termination_by (e + bin - s).toNat
decreasing_by
  obtain ⟨h1, h2⟩ := h
  omega

/-- The `bins` array of the diverging pipeline: zero-filled dense bins from
`floorToBin(yearStart)` to `floorToBin(yearEnd)`. -/
def divergingBins (data : List DisasterRecord) (countryA countryB : String)
    (selectedTypes : List String) (yearStart yearEnd bin : ℤ)
    (metric : MetricKey) : List DivergingBin :=
  let filtered := divergingFiltered data countryA countryB selectedTypes yearStart yearEnd
  let agg := divergingAgg filtered countryA countryB bin metric
  (binRange (floorToBin yearStart bin) (floorToBin yearEnd bin) bin).map
    (fun y => ⟨y, binLabel y bin, (lookupAB agg y).1, (lookupAB agg y).2⟩)

/-! ## Raincloud / half-violin KDE (`CountryRaincloudHalfViolin.tsx`) -/

/-- `kernelEpanechnikov(k)` applied to `v`:
`|v/k| <= 1 ? 0.75 * (1 - (v/k)²) / k : 0`. -/
def kernelEpanechnikov (k : ℚ) (v : ℚ) : ℚ :=
  let x := v / k
  if |x| ≤ 1 then 0.75 * (1 - x * x) / k else 0

/-- `d3.mean` on a plain numeric sample: `undefined` (`none`) for the empty
sample, else the arithmetic mean. -/
def listMean (l : List ℚ) : Option ℚ :=
  if l = [] then none else some (l.sum / l.length)

/-- `kde(kernel, thresholds, sample)`:
`thresholds.map(t => [t, d3.mean(sample, s => kernel(t - s)) ?? 0])`. -/
def kde (kernel : ℚ → ℚ) (thresholds : List ℚ) (sample : List ℚ) :
    List (ℚ × ℚ) :=
  thresholds.map (fun t =>
    (t, (listMean (sample.map (fun s => kernel (t - s)))).getD 0))

/-- `kdeSteps = 80`. -/
def kdeSteps : ℕ := 80

/-- `kdeY = d3.range(kdeSteps).map(i => y0 + (i / (kdeSteps - 1)) * (y1 - y0))`. -/
def kdeGrid (y0 y1 : ℚ) : List ℚ :=
  (List.range kdeSteps).map (fun i : ℕ =>
    y0 + ((i : ℚ) / ((kdeSteps : ℚ) - 1)) * (y1 - y0))

/-- `bw = Math.max(1e-9, (y1 - y0) * 0.06)`. -/
def kdeBandwidth (y0 y1 : ℚ) : ℚ :=
  max (1 / 1000000000) ((y1 - y0) * 0.06)

/-- The per-country `density` of the raincloud pipeline:
`kde(kernelEpanechnikov(bw), kdeY, sample)`. -/
def violinDensity (y0 y1 : ℚ) (sample : List ℚ) : List (ℚ × ℚ) :=
  kde (kernelEpanechnikov (kdeBandwidth y0 y1)) (kdeGrid y0 y1) sample

/-! ## Quantile (`d3.quantileSorted`)

Used with `p = 0.25 / 0.5 / 0.75` on each decade's sorted sample by
`CountryDecadeBoxplot.tsx`, and (after sorting a copy, via `d3.quantile`) with
`p = 0.5 / 0.9` by the raincloud tooltip. -/

/-- `d3.quantileSorted(values, p)` (d3-array), on an already-sorted array:
`undefined` on the empty array; `values[0]` when `p <= 0` or `n < 2`;
`values[n-1]` when `p >= 1`; else linear interpolation at `i = (n-1)p`. -/
def quantileSorted (values : List ℚ) (p : ℚ) : Option ℚ :=
  match values with
  | [] => none
  | v :: rest =>
      let n : ℕ := rest.length + 1
      if p ≤ 0 ∨ n < 2 then some v
      else if 1 ≤ p then some ((v :: rest).getD (n - 1) 0)
      else
        let i : ℚ := ((n : ℚ) - 1) * p
        let i0 : ℤ := ⌊i⌋
        let value0 := (v :: rest).getD i0.toNat 0
        let value1 := (v :: rest).getD (i0.toNat + 1) 0
        some (value0 + (value1 - value0) * (i - (i0 : ℚ)))

/-- C4's wording of the quantile:
`q(p) = a[floor(i)] + (i - floor(i)) * (a[ceil(i)] - a[floor(i)])` with
`i = p * (n - 1)`. -/
def quantileSpecFormula (a : List ℚ) (p : ℚ) : ℚ :=
  let i : ℚ := p * ((a.length : ℚ) - 1)
  let lo := a.getD (⌊i⌋).toNat 0
  let hi := a.getD (⌈i⌉).toNat 0
  lo + (i - (⌊i⌋ : ℚ)) * (hi - lo)

/-! ## Sparkline path builders (C9)

JS division can only produce `NaN`/`Infinity` (from finite operands) when the
divisor is `0`, so the model makes every division `finDiv`, which fails
(`none`) exactly on a zero divisor: a builder returns `some points` iff no
`NaN`/`Infinity` ever enters the emitted coordinates. -/

/-- Effectful map over `Option`: `some` iff every element maps to `some`. -/
def traverseOption {α β : Type} (f : α → Option β) : List α → Option (List β)
  | [] => some []
  | a :: l => do
      let b ← f a
      let l' ← traverseOption f l
      pure (b :: l')

/-- `x || 1` on a JS number that is not `NaN`/`-0`: substitute `1` for `0`. -/
def jsGuard (x : ℚ) : ℚ := if x = 0 then 1 else x

/-- Division refusing a zero divisor (JS would yield `NaN` or `±Infinity`). -/
def finDiv (a b : ℚ) : Option ℚ := if b = 0 then none else some (a / b)

/-- `Math.min(...l)` for the nonempty lists these builders produce. -/
def listMin (l : List ℚ) : ℚ := l.foldl min (l.headD 0)

/-- `Math.max(...l)` for the nonempty lists these builders produce. -/
def listMax (l : List ℚ) : ℚ := l.foldl max (l.headD 0)

/-- `Math.min(...l, d)`. -/
def listMinD (l : List ℚ) (d : ℚ) : ℚ := l.foldl min d

/-- `Math.max(...l, d)`. -/
def listMaxD (l : List ℚ) (d : ℚ) : ℚ := l.foldl max d

/-- Logical sparkline box, shared by both builders (`SPARKLINE_W/H`,
`SPARK_PAD_X/Y` in `ContinentKPIOverview.tsx`; the identically-valued
`SPARKLINE_VIEWBOX_*`/`SPARKLINE_PADDING_*` in `TotalDeathsCard.tsx`). -/
def SPARKLINE_W : ℚ := 100

/-- Sparkline box height. -/
def SPARKLINE_H : ℚ := 40

/-- Sparkline x padding. -/
def SPARK_PAD_X : ℚ := 6

/-- Sparkline y padding. -/
def SPARK_PAD_Y : ℚ := 6

/-- `buildSparkPath` of `ContinentKPIOverview.tsx`, as the list of emitted
`(x, y)` path coordinates (`""`, i.e. no points, for length ≤ 1). -/
def buildSparkPath (values : List ℚ) : Option (List (ℚ × ℚ)) :=
  if values.length ≤ 1 then some []
  else
    let xs := (List.range values.length).map (fun i => (i : ℚ))
    let minX := listMin xs
    let maxX := listMax xs
    let minV := listMinD values 0
    let maxV := listMaxD values 1
    let xSpan := jsGuard (maxX - minX)
    let vSpan := jsGuard (maxV - minV)
    traverseOption (fun p => do
      let rx ← finDiv ((p.1 : ℚ) - minX) xSpan
      let ry ← finDiv (p.2 - minV) vSpan
      pure (SPARK_PAD_X + rx * (SPARKLINE_W - 2 * SPARK_PAD_X),
            SPARKLINE_H - SPARK_PAD_Y - ry * (SPARKLINE_H - 2 * SPARK_PAD_Y)))
      values.enum

/-- The inline `pathD` builder of `TotalDeathsCard.tsx` over the yearly
series (`yearSpan = maxYear - minYear || 1`, `valSpan = maxVal || 1`). -/
def deathsSparkPath (yearlySeries : List (ℤ × ℚ)) : Option (List (ℚ × ℚ)) :=
  if yearlySeries.length ≤ 1 then some []
  else
    let years := yearlySeries.map (fun p => (p.1 : ℚ))
    let values := yearlySeries.map Prod.snd
    let minYear := listMin years
    let maxYear := listMax years
    let maxVal := listMax values
    let yearSpan := jsGuard (maxYear - minYear)
    let valSpan := jsGuard maxVal
    traverseOption (fun p => do
      let rx ← finDiv ((p.1 : ℚ) - minYear) yearSpan
      let ry ← finDiv p.2 valSpan
      pure (SPARK_PAD_X + rx * (SPARKLINE_W - 2 * SPARK_PAD_X),
            SPARKLINE_H - SPARK_PAD_Y - ry * (SPARKLINE_H - 2 * SPARK_PAD_Y)))
      yearlySeries

/-! ## Total-events card filter (`TotalEventsCard.tsx`) -/

/-- The `filteredEvents` memo of `TotalEventsCard.tsx`:
`typeSet = new Set(selectedTypes.map(t => t.toLowerCase()))`;
`matchesType = typeSet.size === 0 || typeSet.has(d.disasterType.toLowerCase())`. -/
def totalEventsFiltered (data : List DisasterRecord) (countryId : String)
    (selectedTypes : List String) (yearStart yearEnd : ℤ) : List DisasterRecord :=
  data.filter (fun d =>
    cardCountryMatch d countryId &&
    (decide (selectedTypes = []) ||
      (selectedTypes.map jsToLower).contains (jsToLower d.disasterType)) &&
    (decide (yearStart ≤ d.year) && decide (d.year ≤ yearEnd)))

/-! ## The memoized loader (`getDisasterData`, `emdatData.ts`)

State machine: `cachedData` is `none` before the first call and `some rows`
afterwards.  A call with an empty cache runs the load once; its `.catch`
handler turns a failed load into the resolved value `[]`.  A call with a
populated cache returns the cached value without consulting the loader, so
the `outcome` argument of later calls is arbitrary. -/

/-- Value the cached promise resolves to for a given load outcome: the parsed
rows on success, `[]` from the `.catch` handler on failure. -/
def loadOutcomeRecords (outcome : Except Unit (List DisasterRecord)) :
    List DisasterRecord :=
  match outcome with
  | .ok rows => rows
  | .error _ => []

/-- One call of `getDisasterData()`: returns (new cache state, resolved
value). -/
def getDisasterData (cachedData : Option (List DisasterRecord))
    (outcome : Except Unit (List DisasterRecord)) :
    Option (List DisasterRecord) × List DisasterRecord :=
  match cachedData with
  | some v => (some v, v)
  | none =>
      let v := loadOutcomeRecords outcome
      (some v, v)

/-- A sequence of calls, each with its own (hypothetical) load outcome;
returns the final cache state and every call's result. -/
def runGetDisasterData (cachedData : Option (List DisasterRecord)) :
    List (Except Unit (List DisasterRecord)) →
    Option (List DisasterRecord) × List (List DisasterRecord)
  | [] => (cachedData, [])
  | o :: os =>
      let step := getDisasterData cachedData o
      let rest := runGetDisasterData step.1 os
      (rest.1, step.2 :: rest.2)

/-! ## Helper lemmas -/

/-- `jsGuard` never returns `0`. -/
theorem jsGuard_ne_zero (x : ℚ) : jsGuard x ≠ 0 := by
  unfold jsGuard
  split
  · norm_num
  · assumption

/-- `finDiv` succeeds on a `jsGuard`ed divisor. -/
theorem finDiv_jsGuard (a x : ℚ) : finDiv a (jsGuard x) = some (a / jsGuard x) := by
  unfold finDiv
  rw [if_neg (jsGuard_ne_zero x)]

/-- `traverseOption` succeeds when every element does. -/
theorem traverseOption_isSome {α β : Type} (f : α → Option β) (l : List α)
    (h : ∀ a ∈ l, (f a).isSome) : ∃ l', traverseOption f l = some l' := by
  induction l with
  | nil => exact ⟨[], rfl⟩
  | cons a l ih =>
      obtain ⟨b, hb⟩ := Option.isSome_iff_exists.mp (h a (by simp))
      obtain ⟨l', hl'⟩ := ih (fun x hx => h x (by simp [hx]))
      exact ⟨b :: l', by simp [traverseOption, hb, hl']⟩

/-! ## C6 -/

/-- C6: for every parsed record, `economicDamageAdj` equals the first
non-null of (`totalDamageAdj`, `reconstructionCostsAdj`,
`insuredDamageAdj`) divided by 1000, and is null exactly when all three
source fields are null. -/
theorem economicDamageAdj_first_nonnull (t r i : Option ℚ) :
    economicDamageAdjOf t r i = economicDamageAdjSpec t r i ∧
    (economicDamageAdjOf t r i = none ↔ t = none ∧ r = none ∧ i = none) := by
  cases t <;> cases r <;> cases i <;>
    simp [economicDamageAdjOf, economicDamageAdjSpec, Option.or]

/-- Closed instance of `economicDamageAdj_first_nonnull` (its binders are
data, not propositions, but a concrete evaluation is still worth recording):
with `totalDamageAdj` null and `reconstructionCostsAdj = 2000`, the derived
field is `2000 / 1000 = 2`. -/
theorem economicDamageAdj_first_nonnull_witness :
    economicDamageAdjOf none (some 2000) (some 7) =
      economicDamageAdjSpec none (some 2000) (some 7) ∧
    economicDamageAdjOf none (some 2000) (some 7) = some 2 := by
  refine ⟨(economicDamageAdj_first_nonnull none (some 2000) (some 7)).1, ?_⟩
  simp [economicDamageAdjOf, Option.or]
  norm_num

/-! ## C7 -/

/-- C7 counterexample: the parser does not reject negative numbers — the raw
string `"-5"` parses to the (finite) value `-5 < 0`, so "never negative" fails
on the code. -/
theorem parseNumericField_negative_value :
    parseNumericField (some "-5") = some (-5) ∧ (-5 : ℚ) < 0 := by
  constructor
  · decide
  · decide

/-- C7 (amended): each parsed numeric metric field is either null or a finite
number — never `NaN` and never `±Infinity`; missing, blank and unparsable
inputs map to null.  (The parser does not, however, reject negative finite
values.) -/
theorem parseNumericField_finite_or_null :
    parseNumericField none = none ∧
    (∀ s : String, (jsTrim s).data = [] → parseNumericField (some s) = none) ∧
    (∀ s : String, jsNumber (stripCommas (jsTrim s)) = JSNum.nan →
      parseNumericField (some s) = none) ∧
    (∀ s : String, jsNumber (stripCommas (jsTrim s)) = JSNum.inf →
      parseNumericField (some s) = none) ∧
    (∀ s : String, jsNumber (stripCommas (jsTrim s)) = JSNum.negInf →
      parseNumericField (some s) = none) ∧
    (∀ (s : String) (q : ℚ), parseNumericField (some s) = some q →
      jsNumber (stripCommas (jsTrim s)) = JSNum.fin q) := by
  refine ⟨rfl, ?_, ?_, ?_, ?_, ?_⟩
  · intro s h
    simp [parseNumericField, h]
  · intro s h
    by_cases hb : (jsTrim s).data = []
    · simp [parseNumericField, hb]
    · simp [parseNumericField, hb, h]
  · intro s h
    by_cases hb : (jsTrim s).data = []
    · simp [parseNumericField, hb]
    · simp [parseNumericField, hb, h]
  · intro s h
    by_cases hb : (jsTrim s).data = []
    · simp [parseNumericField, hb]
    · simp [parseNumericField, hb, h]
  · intro s q h
    by_cases hb : (jsTrim s).data = []
    · simp [parseNumericField, hb] at h
    · simp only [parseNumericField, hb, if_false] at h
      cases hn : jsNumber (stripCommas (jsTrim s)) <;> simp [hn] at h
      rw [h]

/-- Witness for `parseNumericField_finite_or_null` at concrete inputs:
whitespace-only, unparsable, and infinite inputs all map to null. -/
theorem parseNumericField_finite_or_null_witness :
    parseNumericField (some "   ") = none ∧
    parseNumericField (some "abc") = none ∧
    parseNumericField (some "Infinity") = none ∧
    parseNumericField (some "-Infinity") = none :=
  ⟨parseNumericField_finite_or_null.2.1 "   " (by decide),
   parseNumericField_finite_or_null.2.2.1 "abc" (by decide),
   parseNumericField_finite_or_null.2.2.2.1 "Infinity" (by decide),
   parseNumericField_finite_or_null.2.2.2.2.1 "-Infinity" (by decide)⟩

/-! ## C10 -/

/-- C10: if the first load fails, the `.catch` handler resolves the cached
promise to the empty array (`getDisasterData none (error ()) = (some [], [])`);
from that cache state every later call — whatever its hypothetical load
outcome, since the loader is never re-run — returns the same empty array and
leaves the cache unchanged; and the post-failure state is literally the state
after successfully loading an empty dataset. -/
theorem getDisasterData_failure_terminal
    (outcomes : List (Except Unit (List DisasterRecord))) :
    getDisasterData none (Except.error ()) = (some [], []) ∧
    runGetDisasterData (some []) outcomes =
      (some [], outcomes.map (fun _ => [])) ∧
    getDisasterData none (Except.error ()) = getDisasterData none (Except.ok []) := by
  refine ⟨rfl, ?_, rfl⟩
  induction outcomes with
  | nil => rfl
  | cons o os ih => simp [runGetDisasterData, getDisasterData, ih]

/-! ## C8 -/

/-- C8: the empty type selection is pipeline-specific: the stacked timeline
memo early-returns its empty structure, while the total-events card treats an
empty selection as matching all types, filtering only by country and year. -/
theorem empty_type_selection_policy :
    (∀ (data : List DisasterRecord) (countryId : String) (yearStart yearEnd : ℤ)
        (metric : MetricKey),
      stackedMemo data countryId [] yearStart yearEnd metric = emptyStackMemo) ∧
    (∀ (data : List DisasterRecord) (countryId : String) (yearStart yearEnd : ℤ),
      totalEventsFiltered data countryId [] yearStart yearEnd =
        data.filter (fun d => cardCountryMatch d countryId &&
          (decide (yearStart ≤ d.year) && decide (d.year ≤ yearEnd)))) := by
  constructor
  · intro data cid ys ye metric
    simp [stackedMemo]
  · intro data cid ys ye
    apply List.filter_congr
    intro d _
    simp

/-! ## C9 -/

/-- C9: in both sparkline builders, a zero x-span or value span is replaced
by `1` (`jsGuard 0 = 1`), and consequently every division performed while
emitting path coordinates has a nonzero divisor: for every input the builders
return `some` coordinate list — the `NaN`/`Infinity` failure case (`none`)
never occurs. -/
theorem sparkline_paths_finite :
    jsGuard 0 = 1 ∧
    (∀ values : List ℚ, ∃ pts, buildSparkPath values = some pts) ∧
    (∀ series : List (ℤ × ℚ), ∃ pts, deathsSparkPath series = some pts) := by
  refine ⟨by unfold jsGuard; simp, ?_, ?_⟩
  · intro values
    unfold buildSparkPath
    split
    · exact ⟨[], rfl⟩
    · apply traverseOption_isSome
      intro p _
      simp [finDiv_jsGuard]
  · intro series
    unfold deathsSparkPath
    split
    · exact ⟨[], rfl⟩
    · apply traverseOption_isSome
      intro p _
      simp [finDiv_jsGuard]

/-! ## C3 -/

/-- A record with distinct ISO code and country name, for the C3
counterexamples. -/
def recFrance : DisasterRecord :=
  ⟨"FRA", "France", "", "", 2000, none, none, none, none, "Flood",
    none, none, none, none, none, none⟩

/-- C3 counterexample: normalized matching does not describe every pipeline.
The key `"FRANCE"` normalizes to the record's country name, yet the stacked
pipeline's filter (exact equality) rejects it; the key `"FRA"` normalizes to
the record's ISO code, yet the total-events card's filter (country name only)
rejects it. -/
theorem countryMatch_counterexample :
    claimCountryMatch recFrance "FRANCE" ∧
    stackedCountryMatch recFrance "FRANCE" = false ∧
    claimCountryMatch recFrance "FRA" ∧
    cardCountryMatch recFrance "FRA" = false := by
  refine ⟨?_, by decide, ?_, by decide⟩
  · unfold claimCountryMatch
    decide
  · unfold claimCountryMatch
    decide

/-- C3 (amended): the trimmed/case-folded either-field rule holds exactly for
the diverging-comparison family; the stacked family matches by exact string
equality on ISO or country; the total-events card matches case-insensitively
(untrimmed) on the country name only. -/
theorem countryMatch_per_pipeline (d : DisasterRecord) (key : String) :
    (divergingCountryMatch d key = true ↔ claimCountryMatch d key) ∧
    (stackedCountryMatch d key = true ↔ exactMatchSpec d key) ∧
    (cardCountryMatch d key = true ↔ cardMatchSpec d key) := by
  refine ⟨?_, ?_, ?_⟩
  · simp only [divergingCountryMatch, claimCountryMatch, Bool.or_eq_true, beq_iff_eq]
    constructor
    · rintro (h | h)
      · exact Or.inl h.symm
      · exact Or.inr h.symm
    · rintro (h | h)
      · exact Or.inl h.symm
      · exact Or.inr h.symm
  · simp only [stackedCountryMatch, exactMatchSpec, Bool.or_eq_true, beq_iff_eq]
    constructor
    · rintro (h | h)
      · exact Or.inl h.symm
      · exact Or.inr h.symm
    · rintro (h | h)
      · exact Or.inl h.symm
      · exact Or.inr h.symm
  · simp only [cardCountryMatch, cardMatchSpec, beq_iff_eq]
    exact eq_comm

/-! ## C4 -/

/-- A non-integer rational has `⌈x⌉ = ⌊x⌋ + 1`. -/
theorem ceil_eq_floor_succ {x : ℚ} (h : x ≠ (⌊x⌋ : ℚ)) : ⌈x⌉ = ⌊x⌋ + 1 := by
  have h1 := Int.ceil_le_floor_add_one x
  have h2 := Int.floor_le x
  have h3 := Int.le_ceil x
  have h4 : ⌊x⌋ < ⌈x⌉ := by
    by_contra hle
    push_neg at hle
    have hc : (⌈x⌉ : ℚ) ≤ (⌊x⌋ : ℚ) := by exact_mod_cast hle
    exact h (le_antisymm (h3.trans hc) h2)
  omega

/-- C4: on every non-empty sorted sample and `p ∈ [0, 1]`, the quantile used
for the boxplot statistics (`d3.quantileSorted`) equals the claim's formula
`a[⌊i⌋] + (i - ⌊i⌋) * (a[⌈i⌉] - a[⌊i⌋])` with `i = p * (n - 1)`; in
particular `quantile([1,2,3,4], 0.5) = 2.5` and
`quantile([1,2,3,4], 0.25) = 1.75`. -/
theorem quantileSorted_matches_formula :
    (∀ (a : List ℚ) (p : ℚ), a ≠ [] → List.Sorted (· ≤ ·) a → 0 ≤ p → p ≤ 1 →
      quantileSorted a p = some (quantileSpecFormula a p)) ∧
    quantileSorted [1, 2, 3, 4] (1/2) = some (5/2) ∧
    quantileSorted [1, 2, 3, 4] (1/4) = some (7/4) := by
  refine ⟨?_, ?_, ?_⟩
  · intro a p ha _hsort hp0 hp1
    match a, ha with
    | [v], _ =>
        simp [quantileSorted, quantileSpecFormula]
    | v :: w :: rest, _ =>
        by_cases hp : p ≤ 0
        · have hp' : p = 0 := le_antisymm hp hp0
          subst hp'
          simp [quantileSorted, quantileSpecFormula]
        · by_cases hq : p < 1
          · have h1 : ¬(p ≤ 0 ∨ rest.length + 1 + 1 < 2) := by
              push_neg
              exact ⟨lt_of_not_le hp, by omega⟩
            have h2 : ¬(1 ≤ p) := not_le.mpr hq
            simp only [quantileSorted, quantileSpecFormula, List.length_cons]
            rw [if_neg h1, if_neg h2,
              mul_comm p (((rest.length + 1 + 1 : ℕ) : ℚ) - 1)]
            have he : (0 : ℚ) ≤ ((rest.length + 1 + 1 : ℕ) : ℚ) - 1 := by
              push_cast
              linarith [Nat.cast_nonneg (α := ℚ) rest.length]
            set i : ℚ := (((rest.length + 1 + 1 : ℕ) : ℚ) - 1) * p with hi
            have hi0 : 0 ≤ i := mul_nonneg he hp0
            have hfl0 : 0 ≤ ⌊i⌋ := Int.floor_nonneg.mpr hi0
            by_cases hint : i = (⌊i⌋ : ℚ)
            · rw [hint]
              simp only [Int.floor_intCast, Int.ceil_intCast]
              exact congrArg some (by ring)
            · have hceil : ⌈i⌉ = ⌊i⌋ + 1 := ceil_eq_floor_succ hint
              have htn : (⌈i⌉).toNat = (⌊i⌋).toNat + 1 := by
                rw [hceil]
                omega
              rw [htn]
              exact congrArg some (by ring)
          · have hp' : p = 1 := le_antisymm hp1 (not_lt.mp hq)
            subst hp'
            simp only [quantileSorted, quantileSpecFormula, List.length_cons]
            rw [if_neg (by push_neg; exact ⟨by norm_num, by omega⟩), if_pos le_rfl]
            have hone : (1 : ℚ) * (((rest.length + 1 + 1 : ℕ) : ℚ) - 1) =
                ((rest.length + 1 : ℕ) : ℚ) := by
              push_cast
              ring
            rw [hone]
            simp [Int.floor_natCast, Int.ceil_natCast]
  · show quantileSorted [1, 2, 3, 4] (1/2) = some (5/2)
    have hfl : ⌊((((3 : ℕ) + 1 : ℕ) : ℚ) - 1) * (1/2)⌋ = 1 := by
      norm_num
    simp only [quantileSorted, List.length_cons, List.length_nil]
    rw [if_neg (by norm_num), if_neg (by norm_num), hfl]
    norm_num [List.getD]
  · show quantileSorted [1, 2, 3, 4] (1/4) = some (7/4)
    have hfl : ⌊((((3 : ℕ) + 1 : ℕ) : ℚ) - 1) * (1/4)⌋ = 0 := by
      norm_num
    simp only [quantileSorted, List.length_cons, List.length_nil]
    rw [if_neg (by norm_num), if_neg (by norm_num), hfl]
    norm_num [List.getD]

/-- Witness for `quantileSorted_matches_formula` at `a = [1,2,3,4]`,
`p = 1/2`. -/
theorem quantileSorted_matches_formula_witness :
    quantileSorted [1, 2, 3, 4] (1/2) =
      some (quantileSpecFormula [1, 2, 3, 4] (1/2)) :=
  quantileSorted_matches_formula.1 [1, 2, 3, 4] (1/2) (by simp)
    (by norm_num [List.sorted_cons]) (by norm_num) (by norm_num)

/-! ## C5 -/

/-- C5 counterexample: the bandwidth is not always 6% of the domain span —
the source computes `Math.max(1e-9, (y1 - y0) * 0.06)`, so on the degenerate
domain `[0, 0]` the bandwidth is `1e-9` while 6% of the span is `0`. -/
theorem kde_bandwidth_counterexample :
    kdeBandwidth 0 0 = 1 / 1000000000 ∧
    ((0 : ℚ) - 0) * 0.06 = 0 ∧
    kdeBandwidth 0 0 ≠ ((0 : ℚ) - 0) * 0.06 := by
  have h : kdeBandwidth 0 0 = 1 / 1000000000 := by
    unfold kdeBandwidth
    rw [max_eq_left (by norm_num)]
  refine ⟨h, by norm_num, ?_⟩
  rw [h]
  norm_num

/-- C5 (amended): the raincloud KDE is evaluated at 80 evenly spaced grid
points spanning the value domain `[y0, y1]`, with bandwidth
`max(1e-9, 6% of the span)` — hence exactly 6% of the span whenever that is
at least `1e-9`, as for every domain the pipeline constructs; the kernel is
the Epanechnikov kernel `0.75 * (1 - u²) / h` for `|u| ≤ 1` else `0`; the
density at a grid point `t` is the mean over all samples `s` of `K(t - s)`;
and for the empty sample the density is `0` at every grid point, never
`NaN`. -/
theorem kde_pipeline_spec (y0 y1 : ℚ) (sample : List ℚ) :
    (kdeGrid y0 y1).length = 80 ∧
    (∀ i : ℕ, i < 80 → (kdeGrid y0 y1).getD i 0 = y0 + ((i : ℚ) / 79) * (y1 - y0)) ∧
    ((1 / 1000000000 : ℚ) ≤ (y1 - y0) * 0.06 →
      kdeBandwidth y0 y1 = (y1 - y0) * 0.06) ∧
    (∀ h v : ℚ, kernelEpanechnikov h v =
      if |v / h| ≤ 1 then 0.75 * (1 - (v / h) * (v / h)) / h else 0) ∧
    (sample ≠ [] → ∀ t q, (t, q) ∈ violinDensity y0 y1 sample →
      q = (sample.map (fun s =>
            kernelEpanechnikov (kdeBandwidth y0 y1) (t - s))).sum / sample.length) ∧
    (∀ p ∈ violinDensity y0 y1 [], p.2 = 0) := by
  refine ⟨?_, ?_, ?_, ?_, ?_, ?_⟩
  · rw [kdeGrid, List.length_map, List.length_range]
    rfl
  · intro i hi
    have h1 : (List.range kdeSteps)[i]? = some i :=
      List.getElem?_range (by simpa [kdeSteps] using hi)
    rw [kdeGrid, List.getD_eq_getElem?_getD, List.getElem?_map, h1]
    simp
    norm_num [kdeSteps]
  · intro h
    unfold kdeBandwidth
    exact max_eq_right h
  · intro h v
    rfl
  · intro hne t q hmem
    simp only [violinDensity, kde, List.mem_map] at hmem
    obtain ⟨t', _, heq⟩ := hmem
    have ht : t' = t := congrArg Prod.fst heq
    subst ht
    have hq : (listMean (sample.map (fun s =>
        kernelEpanechnikov (kdeBandwidth y0 y1) (t' - s)))).getD 0 = q :=
      congrArg Prod.snd heq
    rw [← hq]
    have hmne : sample.map (fun s =>
        kernelEpanechnikov (kdeBandwidth y0 y1) (t' - s)) ≠ [] := by
      simpa using hne
    simp [listMean, hmne]
  · intro p hp
    simp only [violinDensity, kde, List.mem_map] at hp
    obtain ⟨t', _, heq⟩ := hp
    rw [← heq]
    simp [listMean]

/-- Witness for `kde_pipeline_spec` at the concrete domain `[0, 79]` (where
6% of the span exceeds `1e-9`) and the empty sample. -/
theorem kde_pipeline_spec_witness :
    (kdeGrid 0 79).length = 80 ∧
    kdeBandwidth 0 79 = ((79 : ℚ) - 0) * 0.06 ∧
    (∀ p ∈ violinDensity 0 79 ([] : List ℚ), p.2 = 0) :=
  ⟨(kde_pipeline_spec 0 79 []).1,
   (kde_pipeline_spec 0 79 []).2.2.1 (by norm_num),
   (kde_pipeline_spec 0 79 []).2.2.2.2.2⟩

/-! ## Decimal-representation facts

The stacked pipeline keys its aggregation map by the template string
`` `${year}__${typeKey}` ``.  Splitting such a key back into its components
is well-defined because the decimal rendering of the year consists of digits
(with an optional leading `'-'`) and therefore never contains `'_'`; these
lemmas establish that, plus injectivity of the rendering. -/

/-- `Nat.digitChar` of a decimal digit is the ASCII digit. -/
theorem digitChar_toNat (k : ℕ) (hk : k < 10) : (Nat.digitChar k).toNat = 48 + k := by
  interval_cases k <;> rfl

/-- `Nat.digitChar` of a decimal digit is a digit character. -/
theorem digitChar_isDigit (k : ℕ) (hk : k < 10) : (Nat.digitChar k).isDigit = true := by
  interval_cases k <;> rfl

/-- A digit character is not an underscore. -/
theorem isDigit_ne_underscore {c : Char} (h : c.isDigit = true) : c ≠ '_' := by
  intro he
  subst he
  simp at h

/-- Reading back the digits written by `Nat.toDigitsCore` recovers the
number. -/
theorem toDigitsCore_foldl (fuel : ℕ) :
    ∀ (n : ℕ) (ds : List Char), n < 10 ^ fuel →
      natOfDigits (Nat.toDigitsCore 10 fuel n ds) =
        ds.foldl (fun a c => 10 * a + (c.toNat - 48)) n := by
  induction fuel with
  | zero =>
      intro n ds hn
      have hn0 : n = 0 := by simpa [Nat.lt_one_iff] using hn
      subst hn0
      rfl
  | succ fuel ih =>
      intro n ds hn
      have hmod : n % 10 < 10 := Nat.mod_lt _ (by norm_num)
      by_cases h : n / 10 = 0
      · have hlt : n < 10 := by omega
        simp only [Nat.toDigitsCore, h, if_true]
        show natOfDigits (Nat.digitChar (n % 10) :: ds) = _
        unfold natOfDigits
        simp only [List.foldl_cons]
        rw [digitChar_toNat _ hmod]
        congr 1
        omega
      · have hdiv : n / 10 < 10 ^ fuel := by
          rw [Nat.pow_succ] at hn
          exact Nat.div_lt_iff_lt_mul (by norm_num) |>.mpr hn
        simp only [Nat.toDigitsCore, h, if_false]
        rw [ih (n / 10) (Nat.digitChar (n % 10) :: ds) hdiv]
        simp only [List.foldl_cons]
        rw [digitChar_toNat _ hmod]
        congr 2
        omega

/-- `natOfDigits` is a left inverse of `Nat.repr`. -/
theorem natOfDigits_repr (n : ℕ) : natOfDigits (Nat.repr n).data = n := by
  have h : n < 10 ^ (n + 1) :=
    lt_trans (Nat.lt_pow_self (by norm_num) n) (Nat.pow_lt_pow_succ (by norm_num))
  simpa using toDigitsCore_foldl (n + 1) n [] h

/-- `Nat.repr` is injective. -/
theorem natRepr_injective {m n : ℕ} (h : Nat.repr m = Nat.repr n) : m = n := by
  have h2 := congrArg (fun s => natOfDigits s.data) h
  simpa [natOfDigits_repr] using h2

/-- Every character of `Nat.repr` is a digit. -/
theorem natRepr_isDigit (n : ℕ) : ∀ c ∈ (Nat.repr n).data, c.isDigit = true := by
  have hcore : ∀ (fuel m : ℕ) (ds : List Char), (∀ c ∈ ds, c.isDigit = true) →
      ∀ c ∈ Nat.toDigitsCore 10 fuel m ds, c.isDigit = true := by
    intro fuel
    induction fuel with
    | zero => intro m ds h c hc; exact h c hc
    | succ fuel ih =>
        intro m ds h c hc
        by_cases hm : m / 10 = 0
        · simp only [Nat.toDigitsCore, hm, if_true] at hc
          rcases List.mem_cons.mp hc with hc | hc
          · subst hc
            exact digitChar_isDigit _ (Nat.mod_lt _ (by norm_num))
          · exact h c hc
        · simp only [Nat.toDigitsCore, hm, if_false] at hc
          refine ih (m / 10) _ ?_ c hc
          intro c' hc'
          rcases List.mem_cons.mp hc' with hc' | hc'
          · subst hc'
            exact digitChar_isDigit _ (Nat.mod_lt _ (by norm_num))
          · exact h c' hc'
  exact fun c hc => hcore (n + 1) n [] (by simp) c hc

/-- No character of the decimal rendering of an integer is an underscore. -/
theorem intRepr_no_underscore (y : ℤ) : ∀ c ∈ (toString y).data, c ≠ '_' := by
  cases y with
  | ofNat m =>
      intro c hc
      exact isDigit_ne_underscore (natRepr_isDigit m c hc)
  | negSucc m =>
      intro c hc
      have hc' : c ∈ ("-" ++ Nat.repr (m + 1)).data := hc
      rw [String.data_append] at hc'
      rcases List.mem_append.mp hc' with hc' | hc'
      · simp at hc'
        subst hc'
        decide
      · exact isDigit_ne_underscore (natRepr_isDigit (m + 1) c hc')

/-- The decimal rendering of an integer is injective. -/
theorem intRepr_injective {y z : ℤ} (h : toString y = toString z) : y = z := by
  cases y with
  | ofNat m =>
      cases z with
      | ofNat n =>
          exact congrArg Int.ofNat (natRepr_injective h)
      | negSucc n =>
          exfalso
          have hd := congrArg String.data h
          have hdash : '-' ∈ (Nat.repr m).data := by
            rw [show (toString (Int.ofNat m)).data = (Nat.repr m).data from rfl] at hd
            rw [show (toString (Int.negSucc n)).data = ("-" ++ Nat.repr (n + 1)).data from rfl,
              String.data_append] at hd
            rw [hd]
            simp
          have := natRepr_isDigit m '-' hdash
          simp at this
  | negSucc m =>
      cases z with
      | ofNat n =>
          exfalso
          have hd := congrArg String.data h
          have hdash : '-' ∈ (Nat.repr n).data := by
            rw [show (toString (Int.negSucc m)).data = ("-" ++ Nat.repr (m + 1)).data from rfl,
              String.data_append] at hd
            rw [show (toString (Int.ofNat n)).data = (Nat.repr n).data from rfl] at hd
            rw [← hd]
            simp
          have := natRepr_isDigit n '-' hdash
          simp at this
      | negSucc n =>
          have hd := congrArg String.data h
          rw [show (toString (Int.negSucc m)).data = ("-" ++ Nat.repr (m + 1)).data from rfl,
            show (toString (Int.negSucc n)).data = ("-" ++ Nat.repr (n + 1)).data from rfl,
            String.data_append, String.data_append] at hd
          simp only [List.append_cancel_left_eq] at hd
          have hmn : m + 1 = n + 1 := natRepr_injective (congrArg String.mk hd)
          exact congrArg Int.negSucc (by omega)

/-- Splitting at the first `"__"` is unambiguous when neither prefix contains
an underscore. -/
theorem append_uu_inj :
    ∀ (a b t1 t2 : List Char), (∀ c ∈ a, c ≠ '_') → (∀ c ∈ b, c ≠ '_') →
      a ++ '_' :: '_' :: t1 = b ++ '_' :: '_' :: t2 → a = b ∧ t1 = t2 := by
  intro a
  induction a with
  | nil =>
      intro b t1 t2 _ hb h
      cases b with
      | nil => simpa using h
      | cons c bs =>
          exfalso
          simp at h
          exact hb c (by simp) h.1.symm
  | cons c as ih =>
      intro b t1 t2 ha hb h
      cases b with
      | nil =>
          exfalso
          simp at h
          exact ha c (by simp) h.1
      | cons c' bs =>
          simp only [List.cons_append, List.cons.injEq] at h
          obtain ⟨hcc, hrest⟩ := h
          obtain ⟨h1, h2⟩ := ih bs t1 t2
            (fun x hx => ha x (by simp [hx]))
            (fun x hx => hb x (by simp [hx])) hrest
          exact ⟨by rw [hcc, h1], h2⟩

/-- The composite key `` `${year}__${typeKey}` `` determines both
components. -/
theorem yearTypeKey_inj {y1 y2 : ℤ} {t1 t2 : String}
    (h : yearTypeKey y1 t1 = yearTypeKey y2 t2) : y1 = y2 ∧ t1 = t2 := by
  unfold yearTypeKey at h
  have hd := congrArg String.data h
  rw [String.data_append, String.data_append, String.data_append,
    String.data_append] at hd
  rw [List.append_assoc, List.append_assoc] at hd
  have huu : ("__" : String).data = ['_', '_'] := rfl
  rw [huu] at hd
  simp only [List.cons_append, List.nil_append] at hd
  obtain ⟨h1, h2⟩ := append_uu_inj _ _ _ _
    (intRepr_no_underscore y1) (intRepr_no_underscore y2) hd
  constructor
  · exact intRepr_injective (congrArg String.mk h1)
  · cases t1
    cases t2
    exact congrArg String.mk (by simpa using h2)

/-! ## The closed disaster-type list (`src/lib/utils/disasterTypes.ts`) -/

/-- `DISASTER_TYPES` of `src/lib/utils/disasterTypes.ts`; the type selections
the UI passes to the pipelines are subsets of this list. -/
def DISASTER_TYPES : List String :=
  ["Drought", "Earthquake", "Extreme temperature", "Flood", "Fog",
   "Mass movement (dry)", "Mass movement (wet)",
   "Glacial lake outburst flood", "Storm", "Volcanic activity", "Wildfire"]

/-! ## `binRange` characterization -/

/-- The bin loop enumerates `s, s + bin, …` up to `e`. -/
theorem binRange_eq (s e bin : ℤ) (hb : 0 < bin) :
    binRange s e bin =
      (List.range (if s ≤ e then ((e - s) / bin).toNat + 1 else 0)).map
        (fun i : ℕ => s + bin * i) := by
  induction s, e, bin using binRange.induct with
  | case1 s e bin h ih =>
      obtain ⟨h1, h2⟩ := h
      rw [binRange, dif_pos ⟨h1, h2⟩, ih h1, if_pos h2]
      by_cases hse : s + bin ≤ e
      · rw [if_pos hse]
        have hq : ((e - s) / bin).toNat + 1 = (((e - (s + bin)) / bin).toNat + 1) + 1 := by
          have h3 : (e - s) / bin = (e - (s + bin)) / bin + 1 := by
            have h5 := Int.add_mul_ediv_right (e - (s + bin)) 1 (by omega : bin ≠ 0)
            simp only [one_mul] at h5
            rw [show e - s = e - (s + bin) + bin by ring]
            omega
          have h4 : 0 ≤ (e - (s + bin)) / bin := Int.ediv_nonneg (by omega) (by omega)
          omega
        rw [hq]
        conv_rhs => rw [List.range_succ_eq_map, List.map_cons, List.map_map]
        congr 1
        · simp
        · apply List.map_congr_left
          intro i _
          simp only [Function.comp_apply]
          push_cast
          ring
      · rw [if_neg hse]
        have h3 : (e - s) / bin = 0 :=
          Int.ediv_eq_zero_of_lt (by omega) (by omega)
        have hq : ((e - s) / bin).toNat + 1 = 1 := by omega
        rw [hq]
        simp [List.range_succ]
  | case2 s e bin h =>
      rw [binRange, dif_neg h]
      rw [if_neg (fun hse => h ⟨hb, hse⟩)]
      simp

/-- `floorToBin` divides by the bin size. -/
theorem floorToBin_dvd (y bin : ℤ) (hb : 0 < bin) : bin ∣ floorToBin y bin := by
  unfold floorToBin
  split
  · rename_i h1
    rw [h1]
    exact one_dvd y
  · exact dvd_mul_left bin (y / bin)

/-- `floorToBin` is monotone in the year. -/
theorem floorToBin_mono {y z bin : ℤ} (hb : 0 < bin) (h : y ≤ z) :
    floorToBin y bin ≤ floorToBin z bin := by
  unfold floorToBin
  split
  · exact h
  · exact mul_le_mul_of_nonneg_right (Int.ediv_le_ediv hb h) hb.le

/-! ## Diverging aggregation: absent bins stay zero -/

/-- `upsertAB` on a different key leaves a lookup unchanged. -/
theorem upsertAB_find?_other (m : List (ℤ × (ℚ × ℚ))) (k k' : ℤ) (isA : Bool)
    (delta : ℚ) (h : k ≠ k') :
    (upsertAB m k isA delta).find? (fun p => p.1 == k') =
      m.find? (fun p => p.1 == k') := by
  induction m with
  | nil =>
      show List.find? _ [(k, if isA then (delta, 0) else (0, delta))] = _
      rw [List.find?_cons_of_neg _ (by simpa using h)]
  | cons hd rest ih =>
      obtain ⟨k'', ab⟩ := hd
      by_cases hk : (k'' == k) = true
      · have hstep : upsertAB ((k'', ab) :: rest) k isA delta =
            (k'', if isA then (ab.1 + delta, ab.2) else (ab.1, ab.2 + delta)) :: rest := by
          simp [upsertAB, hk]
        rw [hstep]
        have hne : k'' ≠ k' := fun he => h ((beq_iff_eq.mp hk).symm.trans he)
        rw [List.find?_cons_of_neg _ (by simpa using hne),
          List.find?_cons_of_neg _ (by simpa using hne)]
      · have hstep : upsertAB ((k'', ab) :: rest) k isA delta =
            (k'', ab) :: upsertAB rest k isA delta := by
          simp [upsertAB, hk]
        rw [hstep]
        by_cases hk2 : (k'' == k') = true
        · rw [List.find?_cons_of_pos _ (by simpa using hk2),
            List.find?_cons_of_pos _ (by simpa using hk2)]
        · rw [List.find?_cons_of_neg _ (by simpa using hk2),
            List.find?_cons_of_neg _ (by simpa using hk2)]
          exact ih

/-- A bin key no processed record maps to is absent from the diverging
aggregation map. -/
theorem divergingAgg_find?_none (countryA countryB : String) (bin : ℤ)
    (metric : MetricKey) (k' : ℤ) :
    ∀ (rs : List DisasterRecord) (m : List (ℤ × (ℚ × ℚ))),
      (∀ r ∈ rs, floorToBin r.year bin ≠ k') →
      m.find? (fun p => p.1 == k') = none →
      (rs.foldl
        (fun m d =>
          if divergingCountryMatch d countryA then
            upsertAB m (floorToBin d.year bin) true (metricDelta metric d)
          else if divergingCountryMatch d countryB then
            upsertAB m (floorToBin d.year bin) false (metricDelta metric d)
          else m) m).find? (fun p => p.1 == k') = none := by
  intro rs
  induction rs with
  | nil => intro m _ hm; exact hm
  | cons d rs ih =>
      intro m h hm
      rw [List.foldl_cons]
      refine ih _ (fun r hr => h r (by simp [hr])) ?_
      have hd : floorToBin d.year bin ≠ k' := h d (by simp)
      by_cases h1 : divergingCountryMatch d countryA
      · rw [if_pos h1, upsertAB_find?_other _ _ _ _ _ hd]
        exact hm
      · rw [if_neg h1]
        by_cases h2 : divergingCountryMatch d countryB
        · rw [if_pos h2, upsertAB_find?_other _ _ _ _ _ hd]
          exact hm
        · rw [if_neg h2]
          exact hm

/-! ## Stacked aggregation: key consistency, sums, years -/

/-- Every map entry's string key is the composite key of its row's own year
and type (invariant of the stacked fold). -/
def keyConsistent (m : List (String × YearTypeAgg)) : Prop :=
  ∀ kv ∈ m, kv.1 = yearTypeKey kv.2.year kv.2.type

/-- Sum of a row functional over the rows whose type satisfies `P`. -/
def rowsSum (g : YearTypeAgg → ℚ) (P : String → Bool)
    (m : List (String × YearTypeAgg)) : ℚ :=
  ((m.filter (fun kv => P kv.2.type)).map (fun kv => g kv.2)).sum

/-- There is a row carrying year `z`. -/
def hasYear (m : List (String × YearTypeAgg)) (z : ℤ) : Prop :=
  ∃ kv ∈ m, kv.2.year = z

theorem rowsSum_cons (g : YearTypeAgg → ℚ) (P : String → Bool) (k : String)
    (row : YearTypeAgg) (m : List (String × YearTypeAgg)) :
    rowsSum g P ((k, row) :: m) =
      (if P row.type then g row else 0) + rowsSum g P m := by
  unfold rowsSum
  rw [List.filter_cons]
  by_cases hP : P row.type
  · simp [hP]
  · simp [hP]

/-- The update branch of `upsertRow`. -/
theorem upsertRow_cons_hit {k key : String} {row : YearTypeAgg} {y : ℤ}
    {tk : String} {d : DisasterRecord} (rest : List (String × YearTypeAgg))
    (hk : (k == key) = true) :
    upsertRow ((k, row) :: rest) key y tk d = (k, addRecord row d) :: rest := by
  simp [upsertRow, hk]

/-- The skip branch of `upsertRow`. -/
theorem upsertRow_cons_miss {k key : String} {row : YearTypeAgg} {y : ℤ}
    {tk : String} {d : DisasterRecord} (rest : List (String × YearTypeAgg))
    (hk : ¬ (k == key) = true) :
    upsertRow ((k, row) :: rest) key y tk d =
      (k, row) :: upsertRow rest key y tk d := by
  simp [upsertRow, hk]

theorem upsertRow_keyConsistent {m : List (String × YearTypeAgg)} {key : String}
    {y : ℤ} {tk : String} {d : DisasterRecord} (hm : keyConsistent m)
    (hkey : key = yearTypeKey y tk) :
    keyConsistent (upsertRow m key y tk d) := by
  induction m with
  | nil =>
      intro kv hkv
      simp only [upsertRow, List.mem_singleton] at hkv
      subst hkv
      exact hkey
  | cons hd rest ih =>
      obtain ⟨k, row⟩ := hd
      intro kv hkv
      by_cases hk : (k == key) = true
      · rw [upsertRow_cons_hit rest hk] at hkv
        rcases List.mem_cons.mp hkv with hkv | hkv
        · subst hkv
          exact hm (k, row) (by simp)
        · exact hm kv (by simp [hkv])
      · rw [upsertRow_cons_miss rest hk] at hkv
        rcases List.mem_cons.mp hkv with hkv | hkv
        · subst hkv
          exact hm (k, row) (by simp)
        · exact ih (fun kv' hkv' => hm kv' (by simp [hkv'])) kv hkv

theorem upsertRow_rowsSum (g : YearTypeAgg → ℚ) (P : String → Bool)
    (d : DisasterRecord) (dlt : ℚ)
    (hadd : ∀ row, g (addRecord row d) = g row + dlt)
    (hzero : ∀ (y : ℤ) (tk : String), g ⟨y, tk, 0, 0, 0⟩ = 0) :
    ∀ (m : List (String × YearTypeAgg)) (key : String) (y : ℤ) (tk : String),
      keyConsistent m → key = yearTypeKey y tk →
      rowsSum g P (upsertRow m key y tk d) =
        rowsSum g P m + (if P tk then dlt else 0) := by
  intro m
  induction m with
  | nil =>
      intro key y tk _ _
      show rowsSum g P [(key, addRecord ⟨y, tk, 0, 0, 0⟩ d)] = _
      rw [rowsSum_cons]
      have htype : (addRecord ⟨y, tk, 0, 0, 0⟩ d).type = tk := rfl
      rw [htype, hadd, hzero]
      unfold rowsSum
      simp
  | cons hd rest ih =>
      intro key y tk hm hkey
      obtain ⟨k, row⟩ := hd
      by_cases hk : (k == key) = true
      · have hrow : row.type = tk := by
          have h1 : k = yearTypeKey row.year row.type := hm (k, row) (by simp)
          have h2 : yearTypeKey row.year row.type = yearTypeKey y tk := by
            rw [← h1, beq_iff_eq.mp hk, hkey]
          exact (yearTypeKey_inj h2).2
        rw [upsertRow_cons_hit rest hk, rowsSum_cons, rowsSum_cons]
        have htype : (addRecord row d).type = row.type := rfl
        rw [htype, hadd, hrow]
        by_cases hP : P tk
        · simp only [hP, if_true]
          ring
        · simp only [hP, Bool.false_eq_true, if_false]
          ring
      · rw [upsertRow_cons_miss rest hk, rowsSum_cons, rowsSum_cons,
          ih key y tk (fun kv' hkv' => hm kv' (by simp [hkv'])) hkey]
        ring

theorem upsertRow_hasYear {m : List (String × YearTypeAgg)} {key : String}
    {y : ℤ} {tk : String} {d : DisasterRecord} (hm : keyConsistent m)
    (hkey : key = yearTypeKey y tk) (z : ℤ) :
    hasYear (upsertRow m key y tk d) z ↔ hasYear m z ∨ z = y := by
  induction m with
  | nil =>
      show hasYear [(key, addRecord ⟨y, tk, 0, 0, 0⟩ d)] z ↔ _
      unfold hasYear
      simp [addRecord, eq_comm]
  | cons hd rest ih =>
      obtain ⟨k, row⟩ := hd
      by_cases hk : (k == key) = true
      · have hyy : row.year = y := by
          have h1 : k = yearTypeKey row.year row.type := hm (k, row) (by simp)
          have h2 : yearTypeKey row.year row.type = yearTypeKey y tk := by
            rw [← h1, beq_iff_eq.mp hk, hkey]
          exact (yearTypeKey_inj h2).1
        rw [upsertRow_cons_hit rest hk]
        unfold hasYear
        have hyr : (addRecord row d).year = row.year := rfl
        constructor
        · rintro ⟨kv, hkv, hy⟩
          rcases List.mem_cons.mp hkv with hkv | hkv
          · subst hkv
            rw [hyr, hyy] at hy
            exact Or.inr hy.symm
          · exact Or.inl ⟨kv, by simp [hkv], hy⟩
        · rintro (⟨kv, hkv, hy⟩ | hz)
          · rcases List.mem_cons.mp hkv with hkv | hkv
            · refine ⟨(k, addRecord row d), by simp, ?_⟩
              rw [hyr]
              rw [hkv] at hy
              exact hy
            · exact ⟨kv, by simp [hkv], hy⟩
          · exact ⟨(k, addRecord row d), by simp, by rw [hyr, hyy, hz]⟩
      · rw [upsertRow_cons_miss rest hk]
        have ihr := ih (fun kv' hkv' => hm kv' (by simp [hkv']))
        unfold hasYear at ihr ⊢
        constructor
        · rintro ⟨kv, hkv, hy⟩
          rcases List.mem_cons.mp hkv with hkv | hkv
          · refine Or.inl ⟨(k, row), by simp, ?_⟩
            rw [hkv] at hy
            exact hy
          · rcases ihr.mp ⟨kv, hkv, hy⟩ with ⟨kv', hkv', hy'⟩ | hz
            · exact Or.inl ⟨kv', by simp [hkv'], hy'⟩
            · exact Or.inr hz
        · rintro (⟨kv, hkv, hy⟩ | hz)
          · rcases List.mem_cons.mp hkv with hkv | hkv
            · refine ⟨(k, row), by simp, ?_⟩
              rw [hkv] at hy
              exact hy
            · obtain ⟨kv', hkv', hy'⟩ := ihr.mpr (Or.inl ⟨kv, hkv, hy⟩)
              exact ⟨kv', by simp [hkv'], hy'⟩
          · obtain ⟨kv', hkv', hy'⟩ := ihr.mpr (Or.inr hz)
            exact ⟨kv', by simp [hkv'], hy'⟩

/-- The one-record step of `stackedFold`. -/
def stackedStep (top : List String) (m : List (String × YearTypeAgg))
    (d : DisasterRecord) : List (String × YearTypeAgg) :=
  upsertRow m (yearTypeKey d.year (typeKeyOf top d)) d.year (typeKeyOf top d) d

theorem stackedFold_eq_foldl (rs : List DisasterRecord) (top : List String) :
    stackedFold rs top = rs.foldl (stackedStep top) [] := rfl

theorem stackedStep_eq (top : List String) (m : List (String × YearTypeAgg))
    (d : DisasterRecord) :
    stackedStep top m d =
      upsertRow m (yearTypeKey d.year (typeKeyOf top d)) d.year
        (typeKeyOf top d) d := rfl

theorem foldl_stackedStep_keyConsistent (top : List String) :
    ∀ (rs : List DisasterRecord) (m : List (String × YearTypeAgg)),
      keyConsistent m → keyConsistent (rs.foldl (stackedStep top) m) := by
  intro rs
  induction rs with
  | nil => intro m hm; exact hm
  | cons d rs ih =>
      intro m hm
      exact ih _ (upsertRow_keyConsistent hm rfl)

theorem foldl_stackedStep_rowsSum (g : YearTypeAgg → ℚ) (P : String → Bool)
    (dlt : DisasterRecord → ℚ)
    (hadd : ∀ row d, g (addRecord row d) = g row + dlt d)
    (hzero : ∀ (y : ℤ) (tk : String), g ⟨y, tk, 0, 0, 0⟩ = 0)
    (top : List String) :
    ∀ (rs : List DisasterRecord) (m : List (String × YearTypeAgg)),
      keyConsistent m →
      rowsSum g P (rs.foldl (stackedStep top) m) =
        rowsSum g P m +
          ((rs.filter (fun d => P (typeKeyOf top d))).map dlt).sum := by
  intro rs
  induction rs with
  | nil => intro m _; simp
  | cons d rs ih =>
      intro m hm
      rw [List.foldl_cons,
        ih (stackedStep top m d) (upsertRow_keyConsistent hm rfl),
        stackedStep_eq,
        upsertRow_rowsSum g P d (dlt d) (fun row => hadd row d) hzero m _ _ _ hm rfl,
        List.filter_cons]
      by_cases hP : P (typeKeyOf top d)
      · simp only [hP, if_true, List.map_cons, List.sum_cons]
        ring
      · simp only [hP, Bool.false_eq_true, if_false]
        ring

theorem foldl_stackedStep_hasYear (top : List String) :
    ∀ (rs : List DisasterRecord) (m : List (String × YearTypeAgg)),
      keyConsistent m → ∀ z : ℤ,
      (hasYear (rs.foldl (stackedStep top) m) z ↔
        hasYear m z ∨ ∃ r ∈ rs, r.year = z) := by
  intro rs
  induction rs with
  | nil => intro m _ z; simp [hasYear]
  | cons d rs ih =>
      intro m hm z
      rw [List.foldl_cons,
        ih (stackedStep top m d) (upsertRow_keyConsistent hm rfl) z,
        stackedStep_eq,
        upsertRow_hasYear hm rfl z]
      constructor
      · rintro ((h | h) | h)
        · exact Or.inl h
        · exact Or.inr ⟨d, by simp, h.symm⟩
        · obtain ⟨r, hr, hy⟩ := h
          exact Or.inr ⟨r, by simp [hr], hy⟩
      · rintro (h | ⟨r, hr, hy⟩)
        · exact Or.inl (Or.inl h)
        · rcases List.mem_cons.mp hr with hr | hr
          · subst hr
            exact Or.inl (Or.inr hy.symm)
          · exact Or.inr ⟨r, hr, hy⟩

/-! ## `dedupFirst` and `stackedYears` -/

theorem insertNew_mem {α : Type} [BEq α] [LawfulBEq α] (acc : List α) (a b : α) :
    b ∈ insertNew acc a ↔ b ∈ acc ∨ b = a := by
  unfold insertNew
  split
  · rename_i h
    have ha : a ∈ acc := by
      have := List.mem_of_elem_eq_true h
      exact this
    constructor
    · exact Or.inl
    · rintro (hb | hb)
      · exact hb
      · rw [hb]; exact ha
  · simp

theorem insertNew_nodup {α : Type} [BEq α] [LawfulBEq α] (acc : List α) (a : α)
    (h : acc.Nodup) : (insertNew acc a).Nodup := by
  unfold insertNew
  split
  · exact h
  · rename_i hc
    have ha : a ∉ acc := by
      intro hmem
      exact hc (List.elem_eq_true_of_mem hmem)
    simp [List.nodup_append, h, ha]

theorem dedupFirst_mem {α : Type} [BEq α] [LawfulBEq α] (l : List α) (b : α) :
    b ∈ dedupFirst l ↔ b ∈ l := by
  have hgen : ∀ (l : List α) (acc : List α),
      b ∈ l.foldl insertNew acc ↔ b ∈ acc ∨ b ∈ l := by
    intro l
    induction l with
    | nil => intro acc; simp
    | cons a l ih =>
        intro acc
        rw [List.foldl_cons, ih, insertNew_mem]
        simp only [List.mem_cons]
        tauto
  unfold dedupFirst
  rw [hgen]
  simp

theorem dedupFirst_nodup {α : Type} [BEq α] [LawfulBEq α] (l : List α) :
    (dedupFirst l).Nodup := by
  have hgen : ∀ (l : List α) (acc : List α),
      acc.Nodup → (l.foldl insertNew acc).Nodup := by
    intro l
    induction l with
    | nil => intro acc h; exact h
    | cons a l ih =>
        intro acc h
        exact ih _ (insertNew_nodup acc a h)
  exact hgen l [] (by simp)

theorem stackedYears_sorted (m : List (String × YearTypeAgg)) :
    (stackedYears m).Sorted (· ≤ ·) :=
  List.sorted_insertionSort _ _

theorem stackedYears_nodup (m : List (String × YearTypeAgg)) :
    (stackedYears m).Nodup :=
  (List.perm_insertionSort _ _).nodup_iff.mpr (dedupFirst_nodup _)

theorem stackedYears_mem (m : List (String × YearTypeAgg)) (z : ℤ) :
    z ∈ stackedYears m ↔ hasYear m z := by
  unfold stackedYears hasYear
  rw [(List.perm_insertionSort _ _).mem_iff, dedupFirst_mem]
  simp [List.mem_map]

/-- Sum of the constant `1` counts the elements. -/
theorem sum_map_one {α : Type} (l : List α) :
    (l.map (fun _ => (1 : ℚ))).sum = l.length := by
  induction l with
  | nil => simp
  | cons a l ih =>
      simp [ih]
      push_cast
      ring

/-! ## C2 -/

/-- C2: after the stacked pipeline's top-5 collapsing, the events of all
`(year, type)` rows sum to the number of filtered records, and the rows
labeled `"Other"` accumulate exactly the events/deaths/affected of the
records whose disaster type is outside the top five (the hypothesis `hsel`
mirrors the `DisasterType[]` typing of the selection: no real disaster type
is literally called `"Other"`). -/
theorem stacked_top5_conservation
    (data : List DisasterRecord) (countryId : String) (sel : List String)
    (yearStart yearEnd : ℤ)
    (hsel : ∀ t ∈ sel, t ∈ DISASTER_TYPES)
    (filtered : List DisasterRecord)
    (hf : filtered = stackedFiltered data countryId sel yearStart yearEnd)
    (top : List String) (htop : top = stackedTopTypes filtered)
    (m : List (String × YearTypeAgg)) (hm : m = stackedFold filtered top) :
    rowsSum (fun a => a.events) (fun _ => true) m = (filtered.length : ℚ) ∧
    rowsSum (fun a => a.events) (fun t => t == OTHER_LABEL) m =
      (((filtered.filter (fun d => !(top.contains d.disasterType))).length : ℕ) : ℚ) ∧
    rowsSum (fun a => a.deaths) (fun t => t == OTHER_LABEL) m =
      ((filtered.filter (fun d => !(top.contains d.disasterType))).map
        (fun d => qOrZero d.totalDeaths)).sum ∧
    rowsSum (fun a => a.affected) (fun t => t == OTHER_LABEL) m =
      ((filtered.filter (fun d => !(top.contains d.disasterType))).map
        (fun d => qOrZero d.totalAffected)).sum := by
  subst hm
  have hkc : keyConsistent ([] : List (String × YearTypeAgg)) := by
    intro kv hkv
    simp at hkv
  have hempty : ∀ (g : YearTypeAgg → ℚ) (P : String → Bool),
      rowsSum g P [] = 0 := by
    intro g P
    unfold rowsSum
    simp
  have hOther : ∀ d ∈ filtered, d.disasterType ≠ OTHER_LABEL := by
    intro d hd he
    rw [hf] at hd
    unfold stackedFiltered stackedPerCountry at hd
    rw [List.mem_filter] at hd
    obtain ⟨-, hd2⟩ := hd
    have hc : sel.contains d.disasterType = true := by
      rcases Bool.and_eq_true .. |>.mp hd2 with ⟨-, hc⟩
      exact hc
    have hmem : d.disasterType ∈ sel := List.mem_of_elem_eq_true hc
    have h2 := hsel _ hmem
    rw [he] at h2
    exact absurd h2 (by decide)
  have hfc : ∀ d ∈ filtered,
      ((typeKeyOf top d == OTHER_LABEL)) = !(top.contains d.disasterType) := by
    intro d hd
    unfold typeKeyOf
    by_cases hc : top.contains d.disasterType = true
    · rw [if_pos hc, hc]
      simp [hOther d hd]
    · have hc' : top.contains d.disasterType = false := by
        simpa using hc
      rw [if_neg hc, hc']
      simp
  refine ⟨?_, ?_, ?_, ?_⟩
  · rw [stackedFold_eq_foldl,
      foldl_stackedStep_rowsSum (fun a => a.events) (fun _ => true)
        (fun _ => (1 : ℚ)) (fun row d => rfl) (fun y tk => rfl) top filtered [] hkc,
      hempty]
    rw [show (List.filter (fun d => (fun _ => true) (typeKeyOf top d)) filtered)
        = filtered from List.filter_true filtered]
    rw [sum_map_one]
    ring
  · rw [stackedFold_eq_foldl,
      foldl_stackedStep_rowsSum (fun a => a.events) (fun t => t == OTHER_LABEL)
        (fun _ => (1 : ℚ)) (fun row d => rfl) (fun y tk => rfl) top filtered [] hkc,
      hempty, List.filter_congr hfc, sum_map_one]
    ring
  · rw [stackedFold_eq_foldl,
      foldl_stackedStep_rowsSum (fun a => a.deaths) (fun t => t == OTHER_LABEL)
        (fun d => qOrZero d.totalDeaths) (fun row d => rfl) (fun y tk => rfl)
        top filtered [] hkc,
      hempty, List.filter_congr hfc]
    ring
  · rw [stackedFold_eq_foldl,
      foldl_stackedStep_rowsSum (fun a => a.affected) (fun t => t == OTHER_LABEL)
        (fun d => qOrZero d.totalAffected) (fun row d => rfl) (fun y tk => rfl)
        top filtered [] hkc,
      hempty, List.filter_congr hfc]
    ring

/-- A one-record dataset for the concrete instances: a flood in country `X`
(ISO `XXX`) in 2005. -/
def recFlood2005 : DisasterRecord :=
  ⟨"XXX", "X", "", "", 2005, none, none, none, none, "Flood",
    some 10, none, none, none, none, none⟩

/-- Witness for `stacked_top5_conservation` on the one-record dataset. -/
theorem stacked_top5_conservation_witness :
    rowsSum (fun a => a.events) (fun _ => true)
        (stackedFold (stackedFiltered [recFlood2005] "X" ["Flood"] 2000 2009)
          (stackedTopTypes (stackedFiltered [recFlood2005] "X" ["Flood"] 2000 2009)))
      = ((stackedFiltered [recFlood2005] "X" ["Flood"] 2000 2009).length : ℚ) :=
  (stacked_top5_conservation [recFlood2005] "X" ["Flood"] 2000 2009
    (by decide) _ rfl _ rfl _ rfl).1

/-! ## C1 -/

/-- C1 counterexample: the stacked timeline's per-year series is not
zero-filled over the year range.  With one matching record (year 2005) and
the range `[2000, 2009]` at per-year resolution (`B = 1`), the claim's count
`(floor(2009/1)·1 − floor(2000/1)·1)/1 + 1 = 10`, but the pipeline's series
has exactly one entry. -/
theorem stacked_series_sparse_counterexample :
    (stackedMemo [recFlood2005] "X" ["Flood"] 2000 2009 MetricKey.events).stackInput.length = 1 ∧
    ((floorToBin 2009 1 - floorToBin 2000 1) / 1 + 1 : ℤ) = 10 := by
  constructor
  · decide
  · decide

/-- C1 (amended): the diverging-comparison pipeline's binned series is dense
and zero-filled — for bin size `B > 0` and year range `y0 ≤ y1` it has
exactly `(floor(y1/B)·B − floor(y0/B)·B)/B + 1` entries (the claim's ceiling
is exact since `B` divides the difference), whose bin starts step by `B`
from `floor(y0/B)·B` with no gaps, and a bin no filtered record falls into
carries zeros for both countries.  The stacked timeline's per-year series,
in contrast, is **not** zero-filled over the range: its `years` axis is
sorted and duplicate-free but contains exactly the years of the matching
records, and its stack input has one entry per such year. -/
theorem dense_series_domains
    (data : List DisasterRecord) (countryA countryB countryId : String)
    (sel : List String) (y0 y1 B : ℤ) (metric : MetricKey)
    (hb : 0 < B) (hy : y0 ≤ y1) :
    (divergingBins data countryA countryB sel y0 y1 B metric).length
        = ((floorToBin y1 B - floorToBin y0 B) / B).toNat + 1 ∧
    B ∣ (floorToBin y1 B - floorToBin y0 B) ∧
    (∀ i : ℕ, i < ((floorToBin y1 B - floorToBin y0 B) / B).toNat + 1 →
      ((divergingBins data countryA countryB sel y0 y1 B metric).getD i
        ⟨0, "", 0, 0⟩).binStart = floorToBin y0 B + B * i) ∧
    (∀ p ∈ divergingBins data countryA countryB sel y0 y1 B metric,
      (∀ r ∈ divergingFiltered data countryA countryB sel y0 y1,
        floorToBin r.year B ≠ p.binStart) → p.a = 0 ∧ p.b = 0) ∧
    (stackedMemo data countryId sel y0 y1 metric).years.Sorted (· ≤ ·) ∧
    (stackedMemo data countryId sel y0 y1 metric).years.Nodup ∧
    (sel ≠ [] → stackedFiltered data countryId sel y0 y1 ≠ [] →
      ∀ z : ℤ, z ∈ (stackedMemo data countryId sel y0 y1 metric).years ↔
        ∃ r ∈ stackedFiltered data countryId sel y0 y1, r.year = z) ∧
    (stackedMemo data countryId sel y0 y1 metric).stackInput.length =
      (stackedMemo data countryId sel y0 y1 metric).years.length := by
  have hs : floorToBin y0 B ≤ floorToBin y1 B := floorToBin_mono hb hy
  have hdvd : B ∣ (floorToBin y1 B - floorToBin y0 B) :=
    dvd_sub (floorToBin_dvd y1 B hb) (floorToBin_dvd y0 B hb)
  have hkc : keyConsistent ([] : List (String × YearTypeAgg)) := by
    intro kv hkv
    simp at hkv
  refine ⟨?_, hdvd, ?_, ?_, ?_, ?_, ?_, ?_⟩
  · unfold divergingBins
    rw [binRange_eq _ _ _ hb, if_pos hs]
    simp
  · intro i hi
    unfold divergingBins
    rw [binRange_eq _ _ _ hb, if_pos hs, List.map_map,
      List.getD_eq_getElem?_getD, List.getElem?_map,
      List.getElem?_range hi]
    simp
  · intro p hp hnone
    unfold divergingBins at hp
    rw [List.mem_map] at hp
    obtain ⟨y, _, heq⟩ := hp
    have hfind : (divergingAgg
        (divergingFiltered data countryA countryB sel y0 y1)
        countryA countryB B metric).find? (fun q => q.1 == y) = none := by
      unfold divergingAgg
      refine divergingAgg_find?_none countryA countryB B metric y _ [] ?_ rfl
      intro r hr
      have hbs : p.binStart = y := by rw [← heq]
      rw [← hbs]
      exact hnone r hr
    have hlook : lookupAB (divergingAgg
        (divergingFiltered data countryA countryB sel y0 y1)
        countryA countryB B metric) y = (0, 0) := by
      unfold lookupAB
      rw [hfind]
      rfl
    constructor
    · rw [← heq]
      show (lookupAB _ y).1 = 0
      rw [hlook]
    · rw [← heq]
      show (lookupAB _ y).2 = 0
      rw [hlook]
  · by_cases h1 : sel = []
    · simp [stackedMemo, h1, emptyStackMemo]
    · by_cases h2 : stackedFiltered data countryId sel y0 y1 = []
      · simp [stackedMemo, h1, h2, emptyStackMemo]
      · simp only [stackedMemo, h1, h2, if_false, if_neg h1, if_neg h2]
        exact stackedYears_sorted _
  · by_cases h1 : sel = []
    · simp [stackedMemo, h1, emptyStackMemo]
    · by_cases h2 : stackedFiltered data countryId sel y0 y1 = []
      · simp [stackedMemo, h1, h2, emptyStackMemo]
      · simp only [stackedMemo, h1, h2, if_false, if_neg h1, if_neg h2]
        exact stackedYears_nodup _
  · intro h1 h2 z
    simp only [stackedMemo, if_neg h1, if_neg h2]
    rw [stackedYears_mem, stackedFold_eq_foldl,
      foldl_stackedStep_hasYear _ _ _ hkc z]
    simp [hasYear]
  · by_cases h1 : sel = []
    · simp [stackedMemo, h1, emptyStackMemo]
    · by_cases h2 : stackedFiltered data countryId sel y0 y1 = []
      · simp [stackedMemo, h1, h2, emptyStackMemo]
      · simp only [stackedMemo, h1, h2, if_false, if_neg h1, if_neg h2]
        unfold stackInputOf
        simp

/-- Witness for `dense_series_domains`: with range `[2000, 2009]` and bin
size 5 the diverging pipeline produces `(2005 − 2000)/5 + 1 = 2` bins even
over the empty dataset, and the empty selection gives the stacked pipeline
an empty (trivially sorted) year axis. -/
theorem dense_series_domains_witness :
    (divergingBins [] "a" "b" ["Flood"] 2000 2009 5 MetricKey.events).length
      = ((floorToBin 2009 5 - floorToBin 2000 5) / 5).toNat + 1 ∧
    (stackedMemo [] "X" ["Flood"] 2000 2009 MetricKey.events).years.Sorted (· ≤ ·) :=
  ⟨(dense_series_domains [] "a" "b" "X" ["Flood"] 2000 2009 5 MetricKey.events
      (by norm_num) (by norm_num)).1,
   (dense_series_domains [] "a" "b" "X" ["Flood"] 2000 2009 5 MetricKey.events
      (by norm_num) (by norm_num)).2.2.2.2.1⟩

end DataViz
